import Mathlib

/-!
Verification of the libnfc PN53x protocol engine and transports.

Shallow embedding of the PN53x command/response engine, the USB/UART
transport transceive routines, the serial-port speed setter, the target
decoder and the public target-initialization call, translated from the
C sources (`libnfc/chips/pn53x.c`, `pn53x_usb.c`, `dev_pn532_uart.c`,
`dev_arygon.c`, `rs232.c`, `nfc.c`).  Bytes are modelled as `Nat` with
explicit `% 256` where the C relies on `byte_t` truncation; byte buffers
are lists, or total functions `Nat → Nat` where the C indexes a raw
pointer; fallible calls return `Option` or a `Bool` flag as in C.
-/

/-- Modelled from the spec: the bit utility `mirror` (mirror-subr.c, not
under src/) reverses the 8 bits of a byte ("mirror/reverse a byte"). -/
def mirror (b : Nat) : Nat :=
  (List.range 8).foldl (fun acc i => acc ||| (if b.testBit i then 1 <<< (7 - i) else 0)) 0

/-- The constant `pn53x_ack_frame` from pn53x.c. -/
def pn53x_ack_frame : List Nat := [0x00, 0x00, 0xff, 0x00, 0xff, 0x00]

/-- The constant `pn53x_nack_frame` from pn53x.c. -/
def pn53x_nack_frame : List Nat := [0x00, 0x00, 0xff, 0xff, 0x00, 0x00]

/-- Modelled from the spec: driver-level error identifiers (`DENACK`,
`DEACKMISMATCH`, ..., declared in headers that are not under src/).
Their numeric values are opaque to the claims; only distinctness from
each other and from the 6-bit chip status codes is used. -/
def DENACK : Nat := 0x0100

/-- Modelled from the spec: see `DENACK`. C name `DEACKMISMATCH`. -/
def DEACKMISMATCH : Nat := 0x0200

/-- Modelled from the spec: see `DENACK`. C name `DEISERRFRAME`. -/
def DEISERRFRAME : Nat := 0x0300

/-- Modelled from the spec: see `DENACK`. C name `DEINVAL`. -/
def DEINVAL : Nat := 0x0400

/-- Modelled from the spec: see `DENACK`. C name `DEIO` (input/output
error); renamed here for lexical reasons. -/
def DEIOerr : Nat := 0x0500

/-- The function `pn53x_transceive_callback` (pn53x.c, libnfc-error-handling branch):
inspects the frame received in the ACK slot.  Returns the C `bool`
result and the updated `pnd->iLastError` (first argument is the error
field's value on entry, which the ACK path leaves untouched). -/
def pn53x_transceive_callback (errIn : Nat) (rxFrame : List Nat) : Bool × Nat :=
  if rxFrame.length = 6 then
    if rxFrame = pn53x_ack_frame then (true, errIn)
    else if rxFrame = pn53x_nack_frame then (false, DENACK)
    else (false, DEACKMISMATCH)
  else (false, DEACKMISMATCH)

/-- The transmit-frame construction shared verbatim by
`pn53x_usb_transceive` (pn53x_usb.c) and `dev_pn532_uart_transceive`
(dev_pn532_uart.c): running byte subtraction `abtTx[szTxLen+5] -= abtTx[uiPos+5]`
over the payload. -/
def frame_dcs (payload : List Nat) : Nat :=
  payload.foldl (fun acc b => (acc + 256 - b % 256) % 256) 0

/-- The wire frame built by `pn53x_usb_transceive` / `dev_pn532_uart_transceive`
around a chip-level payload: preamble `00 00 FF`, `abtTx[3] = szTxLen`,
`abtTx[4] = 0x0100 - abtTx[3]` (byte truncation), the payload bytes, the
running-subtraction data checksum, and the end-of-stream marker `00`. -/
def pn53x_build_tx_frame (tx : List Nat) : List Nat :=
  [0x00, 0x00, 0xff, tx.length % 256, (0x100 - tx.length % 256) % 256]
    ++ tx ++ [frame_dcs tx, 0x00]

/-- The function `pn53x_usb_transceive` (pn53x_usb.c).  The USB transport is modelled
by its observable interactions: `writeOk` is the result of the first
`usb_bulk_write`, `read1`/`read2` are the byte strings produced by the
two `usb_bulk_read` calls (`none` = negative return).  The result is
(C return value, `pnd->iLastError` on exit, list of buffers written to
the bulk-out endpoint, data delivered to the caller).  `wantResp` is
false when the caller passed NULL receive buffers. -/
def pn53x_usb_transceive (errIn : Nat) (tx : List Nat) (writeOk : Bool)
    (read1 read2 : Option (List Nat)) (wantResp : Bool) :
    Bool × Nat × List (List Nat) × Option (List Nat) :=
  let frame := pn53x_build_tx_frame tx
  if !writeOk then (false, DEIOerr, [frame], none)
  else
    match read1 with
    | none => (false, DEIOerr, [frame], none)
    | some r1 =>
      let cb := pn53x_transceive_callback errIn r1
      if !cb.1 then (false, cb.2, [frame], none)
      else
        match read2 with
        | none => (false, DEIOerr, [frame], none)
        | some r2 =>
          -- the ACK frame is written back unconditionally
          let writes := [frame, pn53x_ack_frame]
          if !wantResp then (true, errIn, writes, none)
          else if r2.length < 9 then (false, DEINVAL, writes, none)
          else if r2.getD 5 0 = 0xd5 ∧ r2.getD 6 0 = 0x07 ∧ r2.length - 9 = 2 then
            -- "Get register: nuke extra byte (awful hack)"
            (true, errIn, writes, some [r2.getD 8 0])
          else if r2.getD 5 0 ≠ tx.getD 0 0 + 1 then
            (true, DEISERRFRAME, writes, some ((r2.drop 7).take (r2.length - 9)))
          else (true, errIn, writes, some ((r2.drop 7).take (r2.length - 9)))

/-- The function `dev_pn532_uart_transceive` (dev_pn532_uart.c): wraps `tx` with
`pn53x_build_tx_frame`, sends it over the serial port (`sendOk` is the
`rs232_send` result), then processes the single `rs232_receive` buffer
`recv`: any buffer of at least 15 bytes is accepted and stripped at
fixed offsets (13-byte prefix, 2-byte suffix). -/
def dev_pn532_uart_transceive (tx : List Nat) (sendOk : Bool)
    (recv : Option (List Nat)) (wantResp : Bool) :
    Bool × List Nat × Option (List Nat) :=
  let frame := pn53x_build_tx_frame tx
  if !sendOk then (false, frame, none)
  else
    match recv with
    | none => (false, frame, none)
    | some rxBuf =>
      if !wantResp then (true, frame, none)
      else if rxBuf.length < 15 then (false, frame, none)
      else (true, frame, some ((rxBuf.drop 13).take (rxBuf.length - 15)))

/-- Following the spec's words (§4.4): the data checksum is valid when
`(Σ payload + DCS) mod 256 = 0`.  Used only to compare the spec's
required receive-side validation against the code. -/
def spec_dcs_ok (payload : List Nat) (dcs : Nat) : Bool :=
  (payload.sum + dcs) % 256 = 0

/-- The opcodes of `pn53x_transceive`'s `switch (pbtTx[1])` whose first
response byte is a chip status (pn53x.c). -/
def pn53x_status_cmds : List Nat :=
  [0x16, 0x40, 0x42, 0x44, 0x46, 0x4e, 0x50, 0x52, 0x54, 0x56,
   0x86, 0x88, 0x8e, 0x90, 0x92, 0x94]

/-- The function `pn53x_transceive` (pn53x.c): forwards to the driver's transceive
(whose outcome is `resp`: `none` = driver returned false, leaving
`iLastError` as the driver set it, modelled by `errIn`), then classifies
`pbtRx[0]` according to the opcode.  Result is (C return value,
`pnd->iLastError` on exit). -/
def pn53x_transceive (errIn : Nat) (tx : List Nat) (resp : Option (List Nat)) :
    Bool × Nat :=
  match resp with
  | none => (false, errIn)
  | some rx =>
    let e := if tx.getD 1 0 ∈ pn53x_status_cmds then (rx.getD 0 0) &&& 0x3f else 0
    (decide (e = 0), e)

/-- The function `pn53x_set_tx_bits` (pn53x.c).  `cachedTxBits` is `pnd->ui8TxBits`
on entry, `regWriteOk` the outcome of the `pn53x_set_reg` call on
`REG_CIU_BIT_FRAMING`.  Result is (C return value, `pnd->ui8TxBits` on
exit, whether a register write was issued). -/
def pn53x_set_tx_bits (cachedTxBits bits : Nat) (regWriteOk : Bool) :
    Bool × Nat × Bool :=
  if cachedTxBits ≠ bits then
    if regWriteOk then (true, bits, true)
    else (false, cachedTxBits, true)
  else (true, cachedTxBits, false)

/-- The baud rates recognized by `rs232_set_speed`'s switch (rs232.c,
POSIX side, with `B460800` available). -/
def rs232_baud_table : List Nat := [9600, 19200, 38400, 57600, 115200, 230400, 460800]

/-- The function `rs232_set_speed` (rs232.c, POSIX side).  The port state is
abstracted to the baud rate stored in `sp->tiNew` (termios speed
constants identified with their numeric rates); `tiNewSpeed` is that
rate on entry.  The switch maps a recognized rate to its constant and
leaves `stPortSpeed = B9600` (logging an error) otherwise; in either
case `cfsetispeed`/`cfsetospeed` are then applied.  Result is (rate
stored in `tiNew` on exit, whether the unrecognized-speed error was
logged).  Note the C function returns `void`. -/
def rs232_set_speed (tiNewSpeed uiPortSpeed : Nat) : Nat × Bool :=
  if uiPortSpeed ∈ rs232_baud_table then (uiPortSpeed, false) else (9600, true)

/-- The boolean device properties of the libnfc-1.5 API (nfc.h constants
`NP_*`) that `nfc_target_init` writes. -/
inductive nfc_property
  | NP_ACCEPT_INVALID_FRAMES
  | NP_ACCEPT_MULTIPLE_FRAMES
  | NP_HANDLE_CRC
  | NP_HANDLE_PARITY
  | NP_AUTO_ISO14443_4
  | NP_EASY_FRAMING
  | NP_ACTIVATE_CRYPTO1
  | NP_ACTIVATE_FIELD
deriving DecidableEq, BEq

/-- The function `nfc_target_init` (nfc.c, libnfc-1.5-new-api branch): the exact
sequence of `nfc_device_set_property_bool` writes it performs, in
program order, before dispatching to the driver's blocking
`target_init` (`TgInitAsTarget`). -/
def nfc_target_init_prewrites : List (nfc_property × Bool) :=
  [(nfc_property.NP_ACCEPT_INVALID_FRAMES, false),
   (nfc_property.NP_ACCEPT_MULTIPLE_FRAMES, false),
   (nfc_property.NP_HANDLE_CRC, true),
   (nfc_property.NP_HANDLE_PARITY, true),
   (nfc_property.NP_AUTO_ISO14443_4, true),
   (nfc_property.NP_EASY_FRAMING, true),
   (nfc_property.NP_ACTIVATE_CRYPTO1, false),
   (nfc_property.NP_ACTIVATE_FIELD, false)]

/-- Chip variants (`nfc_chip_t`). -/
inductive nfc_chip
  | NC_PN531
  | NC_PN532
  | NC_PN533
deriving DecidableEq

/-- Target types handled by `pn53x_decode_target_data`'s switch.
`NTT_OTHER` stands for every other enumerator of `nfc_target_type_t`
(whose header is not under src/); they all reach the C `default: return
false`. -/
inductive nfc_target_type
  | NTT_MIFARE
  | NTT_GENERIC_PASSIVE_106
  | NTT_ISO14443B_106
  | NTT_FELICA_212
  | NTT_FELICA_424
  | NTT_JEWEL_106
  | NTT_OTHER
deriving DecidableEq

/-- The struct `nfc_iso14443a_info`: ATQA bytes in storage order
(`abtAtqa[0], abtAtqa[1]`), SAK, UID (`szUidLen` = list length) and the
optional ATS. -/
structure nfc_iso14443a_info where
  abtAtqa : List Nat
  btSak : Nat
  abtUid : List Nat
  abtAts : List Nat
deriving DecidableEq

/-- The struct `nfc_iso14443b_info`. -/
structure nfc_iso14443b_info where
  abtAtqb : List Nat
  abtId : List Nat
  btParam1 : Nat
  btParam2 : Nat
  btParam3 : Nat
  btParam4 : Nat
  abtInf : List Nat
deriving DecidableEq

/-- The struct `nfc_felica_info`. -/
structure nfc_felica_info where
  szLen : Nat
  btResCode : Nat
  abtId : List Nat
  abtPad : List Nat
  abtSysCode : List Nat
deriving DecidableEq

/-- The struct `nfc_jewel_info`. -/
structure nfc_jewel_info where
  btSensRes : List Nat
  btId : List Nat
deriving DecidableEq

/-- The union `nfc_target_info_t`: the tagged union filled by the decoder. -/
inductive nfc_target_info
  | nai (i : nfc_iso14443a_info)
  | nbi (i : nfc_iso14443b_info)
  | nfi (i : nfc_felica_info)
  | nji (i : nfc_jewel_info)
deriving DecidableEq

/-- Consecutive bytes `mem start, mem (start+1), ...` as read by the C
`memcpy`s from the raw pointer `pbtRawData`. -/
def readBytes (mem : Nat → Nat) (start len : Nat) : List Nat :=
  (List.range len).map (fun i => mem (start + i))

/-- The function `pn53x_decode_target_data` (pn53x.c).  The raw buffer is the total
function `mem` (index 0 = the `Tg` byte the code skips); `szDataLen` is
the supplied buffer length, which the C dereferences past freely — the
model reads `mem` at whatever indices the C reads.  Returns `none`
exactly on the switch's `default` branch. -/
def pn53x_decode_target_data (mem : Nat → Nat) (szDataLen : Nat)
    (nc : nfc_chip) (ntt : nfc_target_type) : Option nfc_target_info :=
  match ntt with
  | nfc_target_type.NTT_MIFARE | nfc_target_type.NTT_GENERIC_PASSIVE_106 =>
    -- "Somehow they switched the lower and upper ATQA bytes around for
    -- the PN531 chipset"
    let atqa := if nc = nfc_chip.NC_PN531 then [mem 2, mem 1] else [mem 1, mem 2]
    let sak := mem 3
    let uidLen := mem 4
    let uid0 := readBytes mem 5 uidLen
    let ats := if szDataLen > uidLen + 5
      then readBytes mem (6 + uidLen) (mem (5 + uidLen) - 1)
      else []
    -- "Strip CT (Cascade Tag) to retrieve and store the _real_ UID"
    let uid := if uidLen = 8 ∧ uid0.getD 0 0 = 0x88 then uid0.drop 1
      else if uidLen = 12 ∧ uid0.getD 0 0 = 0x88 ∧ uid0.getD 4 0 = 0x88 then
        (uid0.drop 1).take 3 ++ (uid0.drop 5).take 7
      else uid0
    some (nfc_target_info.nai ⟨atqa, sak, uid, ats⟩)
  | nfc_target_type.NTT_ISO14443B_106 =>
    let attribResLen := mem 13
    let inf := if attribResLen > 8 then readBytes mem 23 (mem 22) else []
    some (nfc_target_info.nbi
      ⟨readBytes mem 1 12, readBytes mem 14 4, mem 18, mem 19, mem 20, mem 21, inf⟩)
  | nfc_target_type.NTT_FELICA_212 | nfc_target_type.NTT_FELICA_424 =>
    let len := mem 1
    let sysCode := if len > 18 then readBytes mem 19 2 else []
    some (nfc_target_info.nfi
      ⟨len, mem 2, readBytes mem 3 8, readBytes mem 11 8, sysCode⟩)
  | nfc_target_type.NTT_JEWEL_106 =>
    some (nfc_target_info.nji ⟨readBytes mem 1 2, readBytes mem 3 4⟩)
  | nfc_target_type.NTT_OTHER => none

/-- The inner loop of `pn53x_wrap_frame` (pn53x.c), one step per data
byte.  State: `pos` = `uiDataPos`, `p` = `uiBitPos` (the C inner `for`
counter, folded into the recursion; the `p = 7` case performs the outer
loop's extra `pbtFrame++`), `bitsLeft` = `szBitsLeft` at the top of the
step, `carry` = the partial `btFrame` carried in.  Each step finalizes
the output byte at the current write position and, on exit paths, the
trailing partial byte. -/
def wrapGo (tx par : Nat → Nat) (pos p bitsLeft carry : Nat) : List Nat :=
  let bd := mirror (tx pos)
  let b1 := carry ||| (bd >>> p)
  let c' := ((bd <<< (8 - p)) % 256) ||| ((par pos &&& 1) <<< (7 - p))
  if h : bitsLeft < 9 then [mirror b1, mirror c']
  else if p = 7 then mirror b1 :: mirror c' :: wrapGo tx par (pos + 1) 0 (bitsLeft - 8) 0
  else mirror b1 :: wrapGo tx par (pos + 1) (p + 1) (bitsLeft - 8) c'
termination_by bitsLeft
decreasing_by all_goals omega

/-- The function `pn53x_wrap_frame` (pn53x.c): packs data bytes and their parity bits
into the air-interface byte stream.  Returns `none` when the C returns
false (`szTxBits = 0`); otherwise the written frame bytes and the
reported `*pszFrameBits`. -/
def pn53x_wrap_frame (tx : Nat → Nat) (szTxBits : Nat) (txPar : Nat → Nat) :
    Option (List Nat × Nat) :=
  if szTxBits = 0 then none
  else if szTxBits < 9 then some ([tx 0], szTxBits)
  else some (wrapGo tx txPar 0 0 szTxBits 0, szTxBits + szTxBits / 8)

/-- The inner loop of `pn53x_unwrap_frame` (pn53x.c): `idx` is
`pbtFramePos + uiDataPos` (the `p = 7` case performs the outer loop's
extra `pbtFramePos++`), one `(data byte, parity bit)` pair recovered per
step. -/
def unwrapGo (F : Nat → Nat) (idx p bitsLeft : Nat) : List (Nat × Nat) :=
  let bf1 := mirror (F idx)
  let bf2 := mirror (F (idx + 1))
  let bd := ((bf1 <<< p) % 256) ||| (bf2 >>> (8 - p))
  let pr := (mirror bd, (bf2 >>> (7 - p)) &&& 1)
  if h : bitsLeft < 9 then [pr]
  else if p = 7 then pr :: unwrapGo F (idx + 2) 0 (bitsLeft - 9)
  else pr :: unwrapGo F (idx + 1) (p + 1) (bitsLeft - 9)
termination_by bitsLeft
decreasing_by all_goals omega

/-- The function `pn53x_unwrap_frame` (pn53x.c): recovers (data bytes, `*pszRxBits`,
parity bits) from a received bit-frame.  On the short-frame path
(`szFrameBits < 9`) the C leaves the caller's parity buffer untouched;
that is modelled by the empty parity list. -/
def pn53x_unwrap_frame (F : Nat → Nat) (szFrameBits : Nat) :
    Option (List Nat × Nat × List Nat) :=
  if szFrameBits = 0 then none
  else if szFrameBits < 9 then some ([F 0], szFrameBits, [])
  else
    let prs := unwrapGo F 0 0 szFrameBits
    some (prs.map Prod.fst, szFrameBits - szFrameBits / 9, prs.map Prod.snd)

/-! ## Helper lemmas -/

set_option maxRecDepth 8000

theorem mirror_lt_256 : ∀ b < 256, mirror b < 256 := by decide

theorem mirror_mirror : ∀ b < 256, mirror (mirror b) = b := by decide

theorem frame_dcs_go_lt : ∀ (P : List Nat) (a : Nat), a < 256 →
    P.foldl (fun acc b => (acc + 256 - b % 256) % 256) a < 256 := by
  intro P
  induction P with
  | nil => intro a ha; simpa using ha
  | cons b t ih => intro a _; exact ih _ (Nat.mod_lt _ (by norm_num))

theorem frame_dcs_lt (P : List Nat) : frame_dcs P < 256 :=
  frame_dcs_go_lt P 0 (by norm_num)

theorem frame_dcs_go_sum : ∀ (P : List Nat) (a : Nat), a < 256 →
    (P.foldl (fun acc b => (acc + 256 - b % 256) % 256) a
      + (P.map (fun b => b % 256)).sum) % 256 = a := by
  intro P
  induction P with
  | nil => intro a ha; simpa using Nat.mod_eq_of_lt ha
  | cons b t ih =>
    intro a ha
    simp only [List.foldl_cons, List.map_cons, List.sum_cons]
    have h2 := ih ((a + 256 - b % 256) % 256) (Nat.mod_lt _ (by norm_num))
    omega

theorem frame_dcs_sum (P : List Nat) (hb : ∀ b ∈ P, b < 256) :
    (P.sum + frame_dcs P) % 256 = 0 := by
  have hmap : P.map (fun b => b % 256) = P := by
    rw [show P.map (fun b => b % 256) = P.map id from
      List.map_congr_left (fun b hbm => Nat.mod_eq_of_lt (hb b hbm)), List.map_id]
  have h := frame_dcs_go_sum P 0 (by norm_num)
  rw [hmap] at h
  unfold frame_dcs
  omega

theorem frame_dcs_eq (P : List Nat) (hb : ∀ b ∈ P, b < 256) :
    frame_dcs P = (0x100 - P.sum % 256) % 256 := by
  have h1 := frame_dcs_sum P hb
  have h2 := frame_dcs_lt P
  omega

/-! ## Claim theorems -/

/-- C1 — `nfc_target_init` writes, before blocking in `TgInitAsTarget`:
accept-invalid-frames false, accept-multiple-frames false, CRC handled
by chip, parity handled by chip, Crypto1 off and RF field off — but it
sets `NP_EASY_FRAMING` to `true`, contradicting both the claim and the
function's own documentation ("Easy framing is disabled
(NP_EASY_FRAMING = false)"). -/
theorem nfc_target_init_sets_easy_framing_true :
    nfc_target_init_prewrites.lookup nfc_property.NP_EASY_FRAMING = some true ∧
    nfc_target_init_prewrites.lookup nfc_property.NP_ACCEPT_INVALID_FRAMES = some false ∧
    nfc_target_init_prewrites.lookup nfc_property.NP_ACCEPT_MULTIPLE_FRAMES = some false ∧
    nfc_target_init_prewrites.lookup nfc_property.NP_HANDLE_CRC = some true ∧
    nfc_target_init_prewrites.lookup nfc_property.NP_HANDLE_PARITY = some true ∧
    nfc_target_init_prewrites.lookup nfc_property.NP_ACTIVATE_CRYPTO1 = some false ∧
    nfc_target_init_prewrites.lookup nfc_property.NP_ACTIVATE_FIELD = some false := by
  decide

/-- C2 (counterexample) — a NACK in the ACK slot after sending `D4 02`
makes the transceive fail immediately with `DENACK`: the write trace
contains the command frame exactly once, so the command was not retried
even a single time, refuting "retried at least once". -/
theorem pn53x_usb_transceive_nack_not_retried :
    pn53x_usb_transceive 0 [0xD4, 0x02] true (some pn53x_nack_frame) none true
      = (false, DENACK, [[0x00, 0x00, 0xff, 0x02, 0xfe, 0xD4, 0x02, 0x2a, 0x00]], none) := by
  decide

/-- C2 (amended) — on a NACK in the ACK slot the driver performs no
retry: for every command and every device state it returns false with
`iLastError = DENACK` straight away, having written the command frame
exactly once, and without any further reads or writes; the handle is
not poisoned (only `iLastError` is set). -/
theorem pn53x_usb_transceive_nack_immediate_denack (errIn : Nat) (tx : List Nat)
    (read2 : Option (List Nat)) (wantResp : Bool) :
    pn53x_usb_transceive errIn tx true (some pn53x_nack_frame) read2 wantResp
      = (false, DENACK, [pn53x_build_tx_frame tx], none) := by
  have hcb : pn53x_transceive_callback errIn pn53x_nack_frame = (false, DENACK) := by
    simp [pn53x_transceive_callback, pn53x_nack_frame, pn53x_ack_frame]
  simp [pn53x_usb_transceive, hcb]

/-- C4 — the transmit frame built around a chip-level payload `P` with
`|P| ≤ 255` is exactly preamble `00 00 FF`, `LEN = |P|`,
`LCS = (0x100 − LEN) mod 256`, the payload, `DCS = (0x100 − Σ P) mod 256`
and postamble `00`; hence `|P| + 7` bytes with both checksum identities,
and wrapping `D4 02` yields `00 00 FF 02 FE D4 02 2A 00`. -/
theorem pn53x_build_tx_frame_layout (P : List Nat) (hlen : P.length ≤ 255)
    (hbytes : ∀ b ∈ P, b < 256) :
    pn53x_build_tx_frame P
      = [0x00, 0x00, 0xff, P.length, (0x100 - P.length) % 256] ++ P
        ++ [(0x100 - P.sum % 256) % 256, 0x00] ∧
    (pn53x_build_tx_frame P).length = P.length + 7 ∧
    (P.length + (0x100 - P.length) % 256) % 256 = 0 ∧
    (P.sum + (0x100 - P.sum % 256) % 256) % 256 = 0 ∧
    pn53x_build_tx_frame [0xD4, 0x02]
      = [0x00, 0x00, 0xff, 0x02, 0xfe, 0xD4, 0x02, 0x2a, 0x00] := by
  have hmod : P.length % 256 = P.length := Nat.mod_eq_of_lt (by omega)
  refine ⟨?_, ?_, by omega, by omega, by decide⟩
  · simp [pn53x_build_tx_frame, hmod, frame_dcs_eq P hbytes]
  · simp [pn53x_build_tx_frame]

/-- Witness for C4 at the concrete payload `D4 02`. -/
theorem pn53x_build_tx_frame_layout_witness :
    (pn53x_build_tx_frame [0xD4, 0x02]).length = 9 := by
  have h := pn53x_build_tx_frame_layout [0xD4, 0x02] (by decide) (by decide)
  simpa using h.2.1

/-- C5 (counterexample) — a received buffer whose embedded response
frame violates the data checksum (`D5 03 32` with `DCS = FF`,
`(Σ + DCS) mod 256 = 9 ≠ 0`) is not rejected: the UART transceive
accepts it and delivers the payload byte `32` to the caller. -/
theorem dev_pn532_uart_delivers_bad_dcs :
    spec_dcs_ok [0xD5, 0x03, 0x32] 0xFF = false ∧
    dev_pn532_uart_transceive [0xD4, 0x02] true
        (some [0x00, 0x00, 0xFF, 0x00, 0xFF, 0x00,
               0x00, 0x00, 0xFF, 0x03, 0xFD, 0xD5, 0x03, 0x32, 0xFF, 0x00]) true
      = (true, pn53x_build_tx_frame [0xD4, 0x02], some [0x32]) := by
  decide

/-- C5 (amended) — no LCS/DCS validation is performed on receive: the
UART path accepts every receive buffer of at least 15 bytes and
delivers the bytes stripped at fixed offsets, whatever the checksum
bytes contain; the USB path checks only a 9-byte minimum and the
command-echo byte before delivering. -/
theorem pn53x_receive_no_checksum_validation :
    (∀ (tx rxBuf : List Nat), 15 ≤ rxBuf.length →
      dev_pn532_uart_transceive tx true (some rxBuf) true
        = (true, pn53x_build_tx_frame tx, some ((rxBuf.drop 13).take (rxBuf.length - 15)))) ∧
    (∀ (errIn : Nat) (tx r2 : List Nat), 9 ≤ r2.length →
      r2.getD 5 0 = tx.getD 0 0 + 1 →
      ¬(r2.getD 5 0 = 0xd5 ∧ r2.getD 6 0 = 0x07 ∧ r2.length - 9 = 2) →
      pn53x_usb_transceive errIn tx true (some pn53x_ack_frame) (some r2) true
        = (true, errIn, [pn53x_build_tx_frame tx, pn53x_ack_frame],
           some ((r2.drop 7).take (r2.length - 9)))) := by
  constructor
  · intro tx rxBuf hlen
    simp [dev_pn532_uart_transceive, Nat.not_lt.mpr hlen]
  · intro errIn tx r2 hlen hecho hhack
    have hcb : pn53x_transceive_callback errIn pn53x_ack_frame = (true, errIn) := by
      simp [pn53x_transceive_callback, pn53x_ack_frame]
    simp only [pn53x_usb_transceive, hcb, Bool.not_true, Bool.false_eq_true, if_false]
    rw [if_neg (by omega : ¬r2.length < 9), if_neg hhack, if_neg (by omega)]

/-- Witness for C5's amended theorem: both receive paths deliver a
checksum-violating frame. -/
theorem pn53x_receive_no_checksum_validation_witness :
    dev_pn532_uart_transceive [0xD4, 0x04] true
        (some [0x00, 0x00, 0xFF, 0x00, 0xFF, 0x00,
               0x00, 0x00, 0xFF, 0x03, 0xFD, 0xD5, 0x05, 0x07, 0xAA, 0x00]) true
      = (true, pn53x_build_tx_frame [0xD4, 0x04], some [0x07]) ∧
    pn53x_usb_transceive 0 [0xD4, 0x04] true (some pn53x_ack_frame)
        (some [0x00, 0x00, 0xFF, 0x03, 0xFD, 0xD5, 0x05, 0x07, 0xAA, 0x00]) true
      = (true, 0, [pn53x_build_tx_frame [0xD4, 0x04], pn53x_ack_frame], some [0x07]) := by
  constructor
  · have h := pn53x_receive_no_checksum_validation.1 [0xD4, 0x04]
      [0x00, 0x00, 0xFF, 0x00, 0xFF, 0x00,
       0x00, 0x00, 0xFF, 0x03, 0xFD, 0xD5, 0x05, 0x07, 0xAA, 0x00] (by decide)
    simpa using h
  · have h := pn53x_receive_no_checksum_validation.2 0 [0xD4, 0x04]
      [0x00, 0x00, 0xFF, 0x03, 0xFD, 0xD5, 0x05, 0x07, 0xAA, 0x00]
      (by decide) (by decide) (by decide)
    simpa using h

/-- C6 — after a completed `pn53x_transceive`, for the sixteen opcodes
whose response starts with a status byte, `iLastError` is set to the low
6 bits of `rx[0]` and the call succeeds iff that status is 0; for every
other opcode `iLastError` is cleared to 0 and the call succeeds. -/
theorem pn53x_transceive_error_classification (errIn : Nat) (tx rx : List Nat) :
    (tx.getD 1 0 ∈ ([0x16, 0x40, 0x42, 0x44, 0x46, 0x4e, 0x50, 0x52, 0x54, 0x56,
        0x86, 0x88, 0x8e, 0x90, 0x92, 0x94] : List Nat) →
      (pn53x_transceive errIn tx (some rx)).2 = (rx.getD 0 0) &&& 0x3f ∧
      ((pn53x_transceive errIn tx (some rx)).1 = true ↔ (rx.getD 0 0) &&& 0x3f = 0)) ∧
    (tx.getD 1 0 ∉ ([0x16, 0x40, 0x42, 0x44, 0x46, 0x4e, 0x50, 0x52, 0x54, 0x56,
        0x86, 0x88, 0x8e, 0x90, 0x92, 0x94] : List Nat) →
      pn53x_transceive errIn tx (some rx) = (true, 0)) := by
  have hred : pn53x_transceive errIn tx (some rx)
      = (decide ((if tx.getD 1 0 ∈ pn53x_status_cmds then (rx.getD 0 0) &&& 0x3f else 0) = 0),
         if tx.getD 1 0 ∈ pn53x_status_cmds then (rx.getD 0 0) &&& 0x3f else 0) := rfl
  constructor
  · intro h
    have h' : tx.getD 1 0 ∈ pn53x_status_cmds := by simpa [pn53x_status_cmds] using h
    rw [hred, if_pos h']
    exact ⟨rfl, by simp⟩
  · intro h
    have h' : tx.getD 1 0 ∉ pn53x_status_cmds := by simpa [pn53x_status_cmds] using h
    rw [hred, if_neg h']
    rfl

/-- Witness for C6: `InDataExchange` (opcode 40) with status byte `41`
stores status 1 and fails; `GetFirmwareVersion` (opcode 02) clears the
error. -/
theorem pn53x_transceive_error_classification_witness :
    (pn53x_transceive 7 [0xD4, 0x40] (some [0x41])).2 = 1 ∧
    pn53x_transceive 7 [0xD4, 0x02] (some [0x41]) = (true, 0) := by
  have h1 := (pn53x_transceive_error_classification 7 [0xD4, 0x40] [0x41]).1 (by decide)
  have h2 := (pn53x_transceive_error_classification 7 [0xD4, 0x02] [0x41]).2 (by decide)
  exact ⟨h1.1.trans (by decide), h2⟩

/-- C7 — `pn53x_decode_target_data` branches on the chip variant for
ISO14443A: on PN531 the two raw ATQA bytes are stored swapped, on
PN532/PN533 in raw order, while SAK, UID and ATS are identical across
variants; concretely (scenario S6), payload `Tg 44 03 08 04 AA BB CC DD`
gives `ATQA = 03 44` on PN531 and `ATQA = 44 03` on PN532/PN533, with
`SAK = 08`, `UID = AA BB CC DD` in all cases. -/
theorem pn53x_decode_target_data_atqa_swap (mem : Nat → Nat) (szDataLen : Nat) :
    (∃ sak uid ats,
      pn53x_decode_target_data mem szDataLen nfc_chip.NC_PN531 nfc_target_type.NTT_MIFARE
        = some (nfc_target_info.nai ⟨[mem 2, mem 1], sak, uid, ats⟩) ∧
      pn53x_decode_target_data mem szDataLen nfc_chip.NC_PN532 nfc_target_type.NTT_MIFARE
        = some (nfc_target_info.nai ⟨[mem 1, mem 2], sak, uid, ats⟩) ∧
      pn53x_decode_target_data mem szDataLen nfc_chip.NC_PN533 nfc_target_type.NTT_MIFARE
        = some (nfc_target_info.nai ⟨[mem 1, mem 2], sak, uid, ats⟩)) ∧
    (∀ nc, pn53x_decode_target_data
        (fun i => [0x01, 0x44, 0x03, 0x08, 0x04, 0xAA, 0xBB, 0xCC, 0xDD].getD i 0) 9
        nc nfc_target_type.NTT_MIFARE
      = some (nfc_target_info.nai
          ⟨if nc = nfc_chip.NC_PN531 then [0x03, 0x44] else [0x44, 0x03],
           0x08, [0xAA, 0xBB, 0xCC, 0xDD], []⟩)) := by
  constructor
  · exact ⟨_, _, _, rfl, rfl, rfl⟩
  · intro nc
    cases nc <;> decide

/-- C8 — `pn53x_decode_target_data` performs no buffer-length
validation: a 1-byte ISO14443A buffer (shorter than any minimal
payload) is decoded into a target descriptor instead of failing, and
the result depends on memory beyond the supplied length (two buffers
that agree on every index below `szDataLen = 1` decode differently),
witnessing the out-of-bounds reads the claim rules out. -/
theorem pn53x_decode_target_data_short_buffer :
    (pn53x_decode_target_data (fun _ => 0) 1
        nfc_chip.NC_PN532 nfc_target_type.NTT_MIFARE).isSome = true ∧
    pn53x_decode_target_data (fun _ => 0) 1
        nfc_chip.NC_PN532 nfc_target_type.NTT_MIFARE
      ≠ pn53x_decode_target_data (fun i => if i = 4 then 2 else 0) 1
        nfc_chip.NC_PN532 nfc_target_type.NTT_MIFARE := by
  decide

/-- C9 (counterexample) — requesting the unsupported rate 12345 on a
port configured at 115200 baud does not leave the port unchanged: the
switch falls through with the default `B9600` and the speed is applied,
so the configured rate becomes 9600. -/
theorem rs232_set_speed_mutates_on_invalid :
    rs232_set_speed 115200 12345 = (9600, true) ∧ (9600 : Nat) ≠ 115200 := by
  decide

/-- C9 (amended) — `rs232_set_speed` recognizes exactly the rates
{9600, 19200, 38400, 57600, 115200, 230400, 460800}; for any other
requested value it logs an error message but still reconfigures the
port, applying the default 9600 baud (the function returns no error to
the caller). -/
theorem rs232_set_speed_spec (cur req : Nat) :
    (req ∈ rs232_baud_table → rs232_set_speed cur req = (req, false)) ∧
    (req ∉ rs232_baud_table → rs232_set_speed cur req = (9600, true)) := by
  constructor <;> intro h <;> simp [rs232_set_speed, h]

/-- Witness for C9's amended theorem at 230400 (recognized) and 12345
(unrecognized). -/
theorem rs232_set_speed_spec_witness :
    rs232_set_speed 9600 230400 = (230400, false) ∧
    rs232_set_speed 9600 12345 = (9600, true) := by
  exact ⟨(rs232_set_speed_spec 9600 230400).1 (by decide),
         (rs232_set_speed_spec 9600 12345).2 (by decide)⟩

/-- C10 — the cached `ui8TxBits` equals the value last successfully
written to the CIU bit-framing register: a call with the cached value
issues no device I/O and changes nothing; a failing register write
returns false and leaves the cache unchanged; a successful write
updates the cache to the written value. -/
theorem pn53x_set_tx_bits_cache (cachedTxBits bits : Nat) (regWriteOk : Bool) :
    (cachedTxBits = bits →
      pn53x_set_tx_bits cachedTxBits bits regWriteOk = (true, cachedTxBits, false)) ∧
    (cachedTxBits ≠ bits → regWriteOk = false →
      pn53x_set_tx_bits cachedTxBits bits regWriteOk = (false, cachedTxBits, true)) ∧
    (cachedTxBits ≠ bits → regWriteOk = true →
      pn53x_set_tx_bits cachedTxBits bits regWriteOk = (true, bits, true)) := by
  refine ⟨fun h => ?_, fun h hw => ?_, fun h hw => ?_⟩
  · simp [pn53x_set_tx_bits, h]
  · simp [pn53x_set_tx_bits, h, hw]
  · simp [pn53x_set_tx_bits, h, hw]

/-- Witness for C10: no-op call, failed write, successful write. -/
theorem pn53x_set_tx_bits_cache_witness :
    pn53x_set_tx_bits 7 7 false = (true, 7, false) ∧
    pn53x_set_tx_bits 0 7 false = (false, 0, true) ∧
    pn53x_set_tx_bits 0 7 true = (true, 7, true) := by
  exact ⟨(pn53x_set_tx_bits_cache 7 7 false).1 rfl,
         (pn53x_set_tx_bits_cache 0 7 false).2.1 (by decide) rfl,
         (pn53x_set_tx_bits_cache 0 7 true).2.2 (by decide) rfl⟩

/-! ## Bit-framing helper lemmas (for the wrap/unwrap round trip) -/

theorem testBit_eq_false_of_mod_two_pow {x k i : Nat} (h : x % 2 ^ k = 0) (hik : i < k) :
    x.testBit i = false := by
  have ht := Nat.testBit_mod_two_pow x k i
  rw [h, Nat.zero_testBit] at ht
  simpa [hik] using ht.symm

theorem testBit_eq_false_of_lt_two_pow {x k i : Nat} (h : x < 2 ^ k) (hk : k ≤ i) :
    x.testBit i = false :=
  Nat.testBit_lt_two_pow (lt_of_lt_of_le h (Nat.pow_le_pow_right (by norm_num) hk))

theorem or_mod_two_pow_eq_zero {x y k : Nat} (hx : x % 2 ^ k = 0) (hy : y % 2 ^ k = 0) :
    (x ||| y) % 2 ^ k = 0 := by
  apply Nat.eq_of_testBit_eq
  intro i
  rw [Nat.testBit_mod_two_pow, Nat.testBit_or, Nat.zero_testBit]
  by_cases hik : i < k
  · rw [testBit_eq_false_of_mod_two_pow hx hik, testBit_eq_false_of_mod_two_pow hy hik]
    simp
  · simp [hik]

theorem shiftRight_lt_two_pow {x m n : Nat} (h : x < 2 ^ m) : x >>> n < 2 ^ (m - n) := by
  rw [Nat.shiftRight_eq_div_pow]
  rcases le_or_lt n m with hnm | hnm
  · rw [Nat.div_lt_iff_lt_mul (Nat.two_pow_pos n)]
    calc x < 2 ^ m := h
    _ = 2 ^ (m - n) * 2 ^ n := by rw [← Nat.pow_add]; congr 1; omega
  · have hxn : x < 2 ^ n :=
      lt_of_lt_of_le h (Nat.pow_le_pow_right (by norm_num) (le_of_lt hnm))
    rw [Nat.div_eq_of_lt hxn]
    exact Nat.two_pow_pos _

/-- One air-interface output byte, read back through `pn53x_unwrap_frame`'s
arithmetic, recovers the data byte and parity bit that
`pn53x_wrap_frame`'s arithmetic packed into it: the first frame byte
contributed `carry ||| (md >>> p)`, the second contributed the residue
`((md <<< (8-p)) % 256) ||| ((pa &&& 1) <<< (7-p))` plus the following
byte's spill-over `extra`. -/
theorem recover_pair (p md pa carry extra : Nat)
    (hp : p < 8) (hmd : md < 256) (hpa : pa < 2) (hc : carry < 256)
    (hcz : carry % 2 ^ (8 - p) = 0) (hextra : extra < 2 ^ (7 - p)) :
    ((((carry ||| (md >>> p)) <<< p) % 256) |||
      (((((md <<< (8 - p)) % 256) ||| ((pa &&& 1) <<< (7 - p))) ||| extra) >>> (8 - p))) = md ∧
    (((((md <<< (8 - p)) % 256) ||| ((pa &&& 1) <<< (7 - p))) ||| extra) >>> (7 - p)) &&& 1
      = pa := by
  have h256 : (256 : Nat) = 2 ^ 8 := by norm_num
  have hpa1 : pa &&& 1 = pa := by rw [Nat.and_one_is_mod]; omega
  rw [h256, hpa1]
  have hmd8 : md < 2 ^ 8 := by rw [← h256]; exact hmd
  have hpashift : pa <<< (7 - p) < 2 ^ (8 - p) := by
    rw [Nat.shiftLeft_eq]
    calc pa * 2 ^ (7 - p) < 2 * 2 ^ (7 - p) :=
      Nat.mul_lt_mul_of_lt_of_le hpa (le_refl _) (Nat.two_pow_pos _)
    _ = 2 ^ (8 - p) := by rw [← Nat.pow_succ']; congr 1; omega
  constructor
  · apply Nat.eq_of_testBit_eq
    intro i
    rw [Nat.testBit_or]
    by_cases hip : i < p
    · have h1 : ((((carry ||| (md >>> p)) <<< p) % 2 ^ 8)).testBit i = false := by
        rw [Nat.testBit_mod_two_pow, Nat.testBit_shiftLeft]
        simp [show ¬(i ≥ p) from by omega]
      have h2 : (((((md <<< (8 - p)) % 2 ^ 8) ||| (pa <<< (7 - p))) ||| extra)
          >>> (8 - p)).testBit i = md.testBit i := by
        rw [Nat.testBit_shiftRight, Nat.testBit_or, Nat.testBit_or,
          Nat.testBit_mod_two_pow, Nat.testBit_shiftLeft]
        rw [testBit_eq_false_of_lt_two_pow hpashift (by omega),
          testBit_eq_false_of_lt_two_pow hextra (by omega)]
        rw [show (8 - p) + i - (8 - p) = i from by omega]
        simp [show (8 - p) + i < 8 from by omega, show (8 - p) + i ≥ 8 - p from by omega]
      rw [h1, h2]
      simp
    · by_cases hi8 : i < 8
      · have h1 : ((((carry ||| (md >>> p)) <<< p) % 2 ^ 8)).testBit i = md.testBit i := by
          rw [Nat.testBit_mod_two_pow, Nat.testBit_shiftLeft, Nat.testBit_or,
            Nat.testBit_shiftRight]
          rw [testBit_eq_false_of_mod_two_pow hcz (by omega : i - p < 8 - p)]
          rw [show p + (i - p) = i from by omega]
          simp [hi8, show i ≥ p from by omega]
        have h2 : (((((md <<< (8 - p)) % 2 ^ 8) ||| (pa <<< (7 - p))) ||| extra)
            >>> (8 - p)).testBit i = false := by
          rw [Nat.testBit_shiftRight, Nat.testBit_or, Nat.testBit_or,
            Nat.testBit_mod_two_pow]
          rw [testBit_eq_false_of_lt_two_pow hpashift (by omega),
            testBit_eq_false_of_lt_two_pow hextra (by omega)]
          simp [show ¬((8 - p) + i < 8) from by omega]
        rw [h1, h2, Bool.or_false]
      · have h1 : ((((carry ||| (md >>> p)) <<< p) % 2 ^ 8)).testBit i = false := by
          rw [Nat.testBit_mod_two_pow]
          simp [hi8]
        have h2 : (((((md <<< (8 - p)) % 2 ^ 8) ||| (pa <<< (7 - p))) ||| extra)
            >>> (8 - p)).testBit i = false := by
          rw [Nat.testBit_shiftRight, Nat.testBit_or, Nat.testBit_or,
            Nat.testBit_mod_two_pow]
          rw [testBit_eq_false_of_lt_two_pow hpashift (by omega),
            testBit_eq_false_of_lt_two_pow hextra (by omega)]
          simp [show ¬((8 - p) + i < 8) from by omega]
        rw [h1, h2, testBit_eq_false_of_lt_two_pow hmd8 (by omega)]
        simp
  · have hb : ((((((md <<< (8 - p)) % 2 ^ 8) ||| (pa <<< (7 - p))) ||| extra)
        >>> (7 - p))).testBit 0 = pa.testBit 0 := by
      rw [Nat.testBit_shiftRight, Nat.testBit_or, Nat.testBit_or,
        Nat.testBit_mod_two_pow, Nat.testBit_shiftLeft, Nat.testBit_shiftLeft]
      rw [show (7 - p) + 0 = 7 - p from by omega]
      rw [testBit_eq_false_of_lt_two_pow hextra (le_refl _)]
      simp [show ¬(7 - p ≥ 8 - p) from by omega, show 7 - p - (7 - p) = 0 from by omega]
    rw [Nat.and_one_is_mod]
    rw [Nat.testBit_zero, Nat.testBit_zero] at hb
    have hmod2 := Nat.mod_lt (((((md <<< (8 - p)) % 2 ^ 8) ||| (pa <<< (7 - p))) ||| extra)
        >>> (7 - p)) (show 0 < 2 from by norm_num)
    simp only [decide_eq_decide] at hb
    omega

theorem shiftRight_le_self (x n : Nat) : x >>> n ≤ x := by
  rw [Nat.shiftRight_eq_div_pow]
  exact Nat.div_le_self _ _

theorem or_lt_256 {x y : Nat} (hx : x < 256) (hy : y < 256) : x ||| y < 256 := by
  have h := Nat.or_lt_two_pow (lt_of_lt_of_le hx (by norm_num : (256 : Nat) ≤ 2 ^ 8))
    (lt_of_lt_of_le hy (by norm_num : (256 : Nat) ≤ 2 ^ 8))
  calc x ||| y < 2 ^ 8 := h
  _ ≤ 256 := by norm_num

theorem parbit_shift_lt_256 (x n : Nat) (hn : n ≤ 7) : (x &&& 1) <<< n < 256 := by
  rw [Nat.shiftLeft_eq, Nat.and_one_is_mod]
  calc x % 2 * 2 ^ n ≤ 1 * 2 ^ n := Nat.mul_le_mul_right _ (by omega)
  _ = 2 ^ n := one_mul _
  _ ≤ 2 ^ 7 := Nat.pow_le_pow_right (by norm_num) hn
  _ < 256 := by norm_num

theorem wrap_carry_mod (md pa p : Nat) (hp : p < 8) :
    (((md <<< (8 - p)) % 256) ||| ((pa &&& 1) <<< (7 - p))) % 2 ^ (7 - p) = 0 := by
  apply or_mod_two_pow_eq_zero
  · rw [show (256 : Nat) = 2 ^ 8 from by norm_num,
      Nat.mod_mod_of_dvd _ (pow_dvd_pow 2 (by omega : 7 - p ≤ 8))]
    rw [Nat.shiftLeft_eq, show 8 - p = (7 - p) + 1 from by omega, pow_succ,
      show md * (2 ^ (7 - p) * 2) = md * 2 * 2 ^ (7 - p) from by ring]
    exact Nat.mul_mod_left _ _
  · rw [Nat.shiftLeft_eq]
    exact Nat.mul_mod_left _ _

theorem wrapGo_eq_base (tx par : Nat → Nat) (pos p bitsLeft carry : Nat)
    (h : bitsLeft < 9) :
    wrapGo tx par pos p bitsLeft carry
      = [mirror (carry ||| (mirror (tx pos) >>> p)),
         mirror (((mirror (tx pos) <<< (8 - p)) % 256) ||| ((par pos &&& 1) <<< (7 - p)))] := by
  rw [wrapGo]
  simp [h]

theorem wrapGo_eq_seven (tx par : Nat → Nat) (pos p bitsLeft carry : Nat)
    (h : ¬ bitsLeft < 9) (hp : p = 7) :
    wrapGo tx par pos p bitsLeft carry
      = mirror (carry ||| (mirror (tx pos) >>> p))
        :: mirror (((mirror (tx pos) <<< (8 - p)) % 256) ||| ((par pos &&& 1) <<< (7 - p)))
        :: wrapGo tx par (pos + 1) 0 (bitsLeft - 8) 0 := by
  subst hp
  rw [wrapGo]
  simp [h]

theorem wrapGo_eq_step (tx par : Nat → Nat) (pos p bitsLeft carry : Nat)
    (h : ¬ bitsLeft < 9) (hp : p ≠ 7) :
    wrapGo tx par pos p bitsLeft carry
      = mirror (carry ||| (mirror (tx pos) >>> p))
        :: wrapGo tx par (pos + 1) (p + 1) (bitsLeft - 8)
            (((mirror (tx pos) <<< (8 - p)) % 256) ||| ((par pos &&& 1) <<< (7 - p))) := by
  rw [wrapGo]
  simp [h, hp]

theorem wrapGo_head (tx par : Nat → Nat) (pos p bitsLeft carry : Nat) :
    (wrapGo tx par pos p bitsLeft carry).getD 0 0
      = mirror (carry ||| (mirror (tx pos) >>> p)) := by
  by_cases h : bitsLeft < 9
  · rw [wrapGo_eq_base tx par pos p bitsLeft carry h]
    rfl
  · by_cases hp : p = 7
    · rw [wrapGo_eq_seven tx par pos p bitsLeft carry h hp]
      rfl
    · rw [wrapGo_eq_step tx par pos p bitsLeft carry h hp]
      rfl

theorem unwrapGo_eq_base (F : Nat → Nat) (idx p bitsLeft : Nat) (h : bitsLeft < 9) :
    unwrapGo F idx p bitsLeft
      = [(mirror (((mirror (F idx) <<< p) % 256) ||| (mirror (F (idx + 1)) >>> (8 - p))),
          (mirror (F (idx + 1)) >>> (7 - p)) &&& 1)] := by
  rw [unwrapGo]
  simp [h]

theorem unwrapGo_eq_seven (F : Nat → Nat) (idx p bitsLeft : Nat)
    (h : ¬ bitsLeft < 9) (hp : p = 7) :
    unwrapGo F idx p bitsLeft
      = (mirror (((mirror (F idx) <<< p) % 256) ||| (mirror (F (idx + 1)) >>> (8 - p))),
         (mirror (F (idx + 1)) >>> (7 - p)) &&& 1)
        :: unwrapGo F (idx + 2) 0 (bitsLeft - 9) := by
  subst hp
  rw [unwrapGo]
  simp [h]

theorem unwrapGo_eq_step (F : Nat → Nat) (idx p bitsLeft : Nat)
    (h : ¬ bitsLeft < 9) (hp : p ≠ 7) :
    unwrapGo F idx p bitsLeft
      = (mirror (((mirror (F idx) <<< p) % 256) ||| (mirror (F (idx + 1)) >>> (8 - p))),
         (mirror (F (idx + 1)) >>> (7 - p)) &&& 1)
        :: unwrapGo F (idx + 1) (p + 1) (bitsLeft - 9) := by
  rw [unwrapGo]
  simp [h, hp]

/-- Core round-trip invariant: if `F` holds the bytes `wrapGo` produced
for the `r` data bytes starting at `pos` (with bit position `p` and
carried partial byte `carry`), then `r` steps of `unwrapGo` starting at
the same alignment recover those data bytes and parity bits. -/
theorem unwrapGo_wrapGo_take (r : Nat) :
    ∀ (tx par F : Nat → Nat) (pos p carry idx : Nat),
      1 ≤ r → p < 8 → carry < 256 → carry % 2 ^ (8 - p) = 0 →
      (∀ i, tx i < 256) → (∀ i, par i < 2) →
      (∀ j, F (idx + j) = (wrapGo tx par pos p (8 * r) carry).getD j 0) →
      (unwrapGo F idx p (9 * r)).take r
        = (List.range r).map (fun k => (tx (pos + k), par (pos + k))) := by
  induction r with
  | zero =>
    intro tx par F pos p carry idx hr
    exact absurd hr (by norm_num)
  | succ r ih =>
    intro tx par F pos p carry idx hr1 hp hc hcz htx hpar hF
    have hmdlt : mirror (tx pos) < 256 := mirror_lt_256 (tx pos) (htx pos)
    have hb1lt : (carry ||| (mirror (tx pos) >>> p)) < 256 :=
      or_lt_256 hc (lt_of_le_of_lt (shiftRight_le_self _ _) hmdlt)
    have hc'lt : (((mirror (tx pos) <<< (8 - p)) % 256) ||| ((par pos &&& 1) <<< (7 - p)))
        < 256 :=
      or_lt_256 (Nat.mod_lt _ (by norm_num)) (parbit_shift_lt_256 _ _ (by omega))
    have hF0 : F idx = (wrapGo tx par pos p (8 * (r + 1)) carry).getD 0 0 := by
      have h := hF 0
      rwa [Nat.add_zero] at h
    have hF1 : F (idx + 1) = (wrapGo tx par pos p (8 * (r + 1)) carry).getD 1 0 := hF 1
    by_cases hr0 : r = 0
    · -- last data byte: both loops hit their exit checks
      subst hr0
      have hwrap := wrapGo_eq_base tx par pos p (8 * (0 + 1)) carry (by omega)
      have htake : (unwrapGo F idx p (9 * (0 + 1))).take (0 + 1)
          = [(mirror (((mirror (F idx) <<< p) % 256) ||| (mirror (F (idx + 1)) >>> (8 - p))),
              (mirror (F (idx + 1)) >>> (7 - p)) &&& 1)] := by
        by_cases hp7 : p = 7
        · rw [unwrapGo_eq_seven F idx p (9 * (0 + 1)) (by omega) hp7, List.take_succ_cons,
            List.take_zero]
        · rw [unwrapGo_eq_step F idx p (9 * (0 + 1)) (by omega) hp7, List.take_succ_cons,
            List.take_zero]
      rw [htake, hF0, hF1, hwrap]
      simp only [List.getD_cons_zero, List.getD_cons_succ]
      rw [mirror_mirror _ hb1lt, mirror_mirror _ hc'lt]
      have hrec := recover_pair p (mirror (tx pos)) (par pos) carry 0 hp hmdlt (hpar pos)
        hc hcz (Nat.two_pow_pos _)
      rw [Nat.or_zero] at hrec
      rw [hrec.1, hrec.2, mirror_mirror _ (htx pos)]
      rw [show List.range 1 = [0] from by decide]
      simp
    · -- middle data byte
      have hrpos : 1 ≤ r := by omega
      have hw9 : ¬ (8 * (r + 1) < 9) := by omega
      have hu9 : ¬ (9 * (r + 1) < 9) := by omega
      by_cases hp7 : p = 7
      · -- end of an 8-byte group: both loops bump their frame pointer
        have hwrap := wrapGo_eq_seven tx par pos p (8 * (r + 1)) carry hw9 hp7
        rw [show 8 * (r + 1) - 8 = 8 * r from by omega] at hwrap
        have hun := unwrapGo_eq_seven F idx p (9 * (r + 1)) hu9 hp7
        rw [show 9 * (r + 1) - 9 = 9 * r from by omega] at hun
        rw [hun, List.take_succ_cons]
        have hFtail : ∀ j, F (idx + 2 + j) = (wrapGo tx par (pos + 1) 0 (8 * r) 0).getD j 0 := by
          intro j
          have h := hF (2 + j)
          rw [show idx + (2 + j) = idx + 2 + j from by omega] at h
          rw [h, hwrap, show 2 + j = (j + 1) + 1 from by omega, List.getD_cons_succ,
            List.getD_cons_succ]
        have htail := ih tx par F (pos + 1) 0 0 (idx + 2) hrpos (by norm_num) (by norm_num)
          (by norm_num) htx hpar hFtail
        rw [htail]
        have hF0' : F idx = mirror (carry ||| (mirror (tx pos) >>> p)) := by
          rw [hF0, hwrap, List.getD_cons_zero]
        have hF1' : F (idx + 1)
            = mirror (((mirror (tx pos) <<< (8 - p)) % 256) ||| ((par pos &&& 1) <<< (7 - p))) := by
          rw [hF1, hwrap, List.getD_cons_succ, List.getD_cons_zero]
        rw [hF0', hF1', mirror_mirror _ hb1lt, mirror_mirror _ hc'lt]
        have hrec := recover_pair p (mirror (tx pos)) (par pos) carry 0 hp hmdlt (hpar pos)
          hc hcz (Nat.two_pow_pos _)
        rw [Nat.or_zero] at hrec
        rw [hrec.1, hrec.2, mirror_mirror _ (htx pos)]
        rw [List.range_succ_eq_map, List.map_cons, List.map_map]
        refine congrArg₂ _ (by simp) ?_
        apply List.map_congr_left
        intro a _
        simp only [Function.comp]
        rw [show pos + 1 + a = pos + (a + 1) from by omega]
      · -- within an 8-byte group: spill-over into the next output byte
        have hwrap := wrapGo_eq_step tx par pos p (8 * (r + 1)) carry hw9 hp7
        rw [show 8 * (r + 1) - 8 = 8 * r from by omega] at hwrap
        have hun := unwrapGo_eq_step F idx p (9 * (r + 1)) hu9 hp7
        rw [show 9 * (r + 1) - 9 = 9 * r from by omega] at hun
        rw [hun, List.take_succ_cons]
        have hFtail : ∀ j, F (idx + 1 + j)
            = (wrapGo tx par (pos + 1) (p + 1) (8 * r)
                (((mirror (tx pos) <<< (8 - p)) % 256) ||| ((par pos &&& 1) <<< (7 - p)))).getD j 0 := by
          intro j
          have h := hF (1 + j)
          rw [show idx + (1 + j) = idx + 1 + j from by omega] at h
          rw [h, hwrap, show 1 + j = j + 1 from by omega, List.getD_cons_succ]
        have hcz' : (((mirror (tx pos) <<< (8 - p)) % 256) ||| ((par pos &&& 1) <<< (7 - p)))
            % 2 ^ (8 - (p + 1)) = 0 := by
          rw [show 8 - (p + 1) = 7 - p from by omega]
          exact wrap_carry_mod (mirror (tx pos)) (par pos) p hp
        have htail := ih tx par F (pos + 1) (p + 1)
          (((mirror (tx pos) <<< (8 - p)) % 256) ||| ((par pos &&& 1) <<< (7 - p)))
          (idx + 1) hrpos (by omega) hc'lt hcz' htx hpar hFtail
        rw [htail]
        have hF0' : F idx = mirror (carry ||| (mirror (tx pos) >>> p)) := by
          rw [hF0, hwrap, List.getD_cons_zero]
        have hF1' : F (idx + 1)
            = mirror ((((mirror (tx pos) <<< (8 - p)) % 256) ||| ((par pos &&& 1) <<< (7 - p)))
                ||| (mirror (tx (pos + 1)) >>> (p + 1))) := by
          rw [hF1, hwrap, List.getD_cons_succ, wrapGo_head]
        have hextra : mirror (tx (pos + 1)) >>> (p + 1) < 2 ^ (7 - p) := by
          have h := shiftRight_lt_two_pow (m := 8) (x := mirror (tx (pos + 1))) (n := p + 1)
            (lt_of_lt_of_le (mirror_lt_256 _ (htx (pos + 1))) (by norm_num))
          rwa [show 8 - (p + 1) = 7 - p from by omega] at h
        have hbf2lt : (((mirror (tx pos) <<< (8 - p)) % 256) ||| ((par pos &&& 1) <<< (7 - p)))
            ||| (mirror (tx (pos + 1)) >>> (p + 1)) < 256 :=
          or_lt_256 hc'lt (lt_of_le_of_lt (shiftRight_le_self _ _)
            (mirror_lt_256 _ (htx (pos + 1))))
        rw [hF0', hF1', mirror_mirror _ hb1lt, mirror_mirror _ hbf2lt]
        have hrec := recover_pair p (mirror (tx pos)) (par pos) carry
          (mirror (tx (pos + 1)) >>> (p + 1)) hp hmdlt (hpar pos) hc hcz hextra
        rw [hrec.1, hrec.2, mirror_mirror _ (htx pos)]
        rw [List.range_succ_eq_map, List.map_cons, List.map_map]
        refine congrArg₂ _ (by simp) ?_
        apply List.map_congr_left
        intro a _
        simp only [Function.comp]
        rw [show pos + 1 + a = pos + (a + 1) from by omega]

theorem map_getD_range (l : List Nat) :
    (List.range l.length).map (fun k => l.getD k 0) = l := by
  apply List.ext_getElem
  · simp
  · intro n h1 h2
    rw [List.getElem_map, List.getElem_range, List.getD_eq_getElem _ _ h2]

/-- C3 (counterexample) — for a single data byte `pn53x_wrap_frame`
takes the short-frame path (`szTxBits = 8 < 9`), emitting the bare byte
with no parity bit, and `pn53x_unwrap_frame` on that frame takes its own
short path, which never writes the caller's parity buffer: the data byte
comes back but the parity stream `[1]` does not, so the round trip at
length 1 does not return `(D, PA)`. -/
theorem pn53x_wrap_unwrap_single_byte_loses_parity :
    pn53x_wrap_frame (fun i => [0x26].getD i 0) (8 * 1) (fun i => [1].getD i 0)
      = some ([0x26], 8) ∧
    pn53x_unwrap_frame (fun j => [0x26].getD j 0) 8 = some ([0x26], 8, ([] : List Nat)) ∧
    (([] : List Nat) ≠ [1]) := by
  refine ⟨by decide, by decide, by decide⟩

/-- C3 (amended) — for data streams of length at least 2 (bytes < 256,
parity bits < 2), unwrapping the frame `pn53x_wrap_frame` produces, with
the frame bit count it reports (`9·|D|`), yields the reported received
bit count `8·|D|` and recovers exactly the original data bytes and
parity bits in the `|D|` entries those bits denote.  (The C loops write
one further garbage entry past the reported length; `take |D|` restricts
to the meaningful entries.) -/
theorem pn53x_wrap_unwrap_roundtrip (D PA : List Nat)
    (hn : 2 ≤ D.length) (hlen : PA.length = D.length)
    (hD : ∀ d ∈ D, d < 256) (hPA : ∀ b ∈ PA, b < 2) :
    ∃ F rx rpar,
      pn53x_wrap_frame (fun i => D.getD i 0) (8 * D.length) (fun i => PA.getD i 0)
        = some (F, 9 * D.length) ∧
      pn53x_unwrap_frame (fun j => F.getD j 0) (9 * D.length)
        = some (rx, 8 * D.length, rpar) ∧
      rx.take D.length = D ∧ rpar.take D.length = PA := by
  have htx : ∀ i, D.getD i 0 < 256 := by
    intro i
    by_cases h : i < D.length
    · rw [List.getD_eq_getElem _ _ h]
      exact hD _ (List.getElem_mem h)
    · rw [List.getD_eq_default _ _ (by omega)]
      norm_num
  have hpar : ∀ i, PA.getD i 0 < 2 := by
    intro i
    by_cases h : i < PA.length
    · rw [List.getD_eq_getElem _ _ h]
      exact hPA _ (List.getElem_mem h)
    · rw [List.getD_eq_default _ _ (by omega)]
      norm_num
  have hcore := unwrapGo_wrapGo_take D.length (fun i => D.getD i 0) (fun i => PA.getD i 0)
    (fun j => (wrapGo (fun i => D.getD i 0) (fun i => PA.getD i 0) 0 0 (8 * D.length) 0).getD j 0)
    0 0 0 0 (by omega) (by norm_num) (by norm_num) (by norm_num) htx hpar
    (by intro j; rw [Nat.zero_add])
  refine ⟨wrapGo (fun i => D.getD i 0) (fun i => PA.getD i 0) 0 0 (8 * D.length) 0,
    (unwrapGo (fun j => (wrapGo (fun i => D.getD i 0) (fun i => PA.getD i 0) 0 0
        (8 * D.length) 0).getD j 0) 0 0 (9 * D.length)).map Prod.fst,
    (unwrapGo (fun j => (wrapGo (fun i => D.getD i 0) (fun i => PA.getD i 0) 0 0
        (8 * D.length) 0).getD j 0) 0 0 (9 * D.length)).map Prod.snd, ?_, ?_, ?_, ?_⟩
  · unfold pn53x_wrap_frame
    rw [if_neg (by omega), if_neg (by omega),
      Nat.mul_div_cancel_left _ (by norm_num : 0 < 8),
      show 8 * D.length + D.length = 9 * D.length from by omega]
  · unfold pn53x_unwrap_frame
    rw [if_neg (by omega), if_neg (by omega),
      Nat.mul_div_cancel_left _ (by norm_num : 0 < 9),
      show 9 * D.length - D.length = 8 * D.length from by omega]
  · rw [← List.map_take, hcore, List.map_map]
    simp only [Function.comp, Nat.zero_add]
    exact map_getD_range D
  · rw [← List.map_take, hcore, List.map_map]
    simp only [Function.comp, Nat.zero_add]
    rw [← hlen]
    exact map_getD_range PA

/-- Witness for C3's amended round trip at `D = 26 63`, `PA = 1 0`. -/
theorem pn53x_wrap_unwrap_roundtrip_witness :
    ∃ F rx rpar,
      pn53x_wrap_frame (fun i => [0x26, 0x63].getD i 0)
          (8 * ([0x26, 0x63] : List Nat).length) (fun i => [1, 0].getD i 0)
        = some (F, 9 * ([0x26, 0x63] : List Nat).length) ∧
      pn53x_unwrap_frame (fun j => F.getD j 0) (9 * ([0x26, 0x63] : List Nat).length)
        = some (rx, 8 * ([0x26, 0x63] : List Nat).length, rpar) ∧
      rx.take ([0x26, 0x63] : List Nat).length = [0x26, 0x63] ∧
      rpar.take ([0x26, 0x63] : List Nat).length = [1, 0] :=
  pn53x_wrap_unwrap_roundtrip [0x26, 0x63] [1, 0] (by decide) (by decide)
    (by decide) (by decide)
